import Mathlib

/-!
Verification of the fwd control-plane core: a shallow embedding of the
configuration validator, config printer/parser, worker (PMD) manager,
QSBR (RCU) manager, MPSC deferred-work queue and command handler,
with theorems settling the specification claims.

Machine integers are modelled as `Nat`/`Int` with explicit wrap-around
(`% 2^w`) where the C++ code truncates. JSON encoding/decoding of text
is external to the repository (nlohmann/json, used as a black box); JSON
values are modelled structurally, with objects stored as key-sorted
association lists mirroring `std::map`-backed `nlohmann::json` objects.
-/

namespace Fwd

/-- JSON values. Objects keep their fields sorted by key, as the
`std::map`-backed `nlohmann::json` does. Only integer numbers appear in
the configuration surface, so numbers are modelled as `Int`. -/
inductive Json where
  | null
  | bool (b : Bool)
  | num (n : Int)
  | str (s : String)
  | arr (elems : List Json)
  | obj (fields : List (String × Json))
deriving Repr, Inhabited

/-- Lexicographic character-code comparison, the order of
`std::string::operator<` (the config keys are ASCII, where byte order
and character order agree). -/
def charListLt : List Char → List Char → Bool
  | [], [] => false
  | [], _ :: _ => true
  | _ :: _, [] => false
  | a :: as, b :: bs =>
    if a.toNat < b.toNat then true
    else if b.toNat < a.toNat then false
    else charListLt as bs

/-- String order of the `std::map` keying JSON object fields. -/
def strLt (a b : String) : Bool := charListLt a.data b.data

/-- Insert (or overwrite) a field in a key-sorted association list,
mirroring `std::map::operator[]` assignment. -/
def setFields (key : String) (v : Json) : List (String × Json) → List (String × Json)
  | [] => [(key, v)]
  | (k, w) :: rest =>
    if key = k then (k, v) :: rest
    else if strLt key k then (key, v) :: (k, w) :: rest
    else (k, w) :: setFields key v rest

/-- `j[key] = v` on a JSON object (the printer only ever assigns into
objects; a non-object is replaced by a fresh object as a default). -/
def Json.setKey (j : Json) (key : String) (v : Json) : Json :=
  match j with
  | .obj fields => .obj (setFields key v fields)
  | _ => .obj [(key, v)]

/-- Association-list lookup used by `Json.lookup`. -/
def lookupField (key : String) : List (String × Json) → Option Json
  | [] => none
  | (k, v) :: rest => if k = key then some v else lookupField key rest

/-- `j[key]` read access / `j.contains(key)` support. -/
def Json.lookup (j : Json) (key : String) : Option Json :=
  match j with
  | .obj fields => lookupField key fields
  | _ => none

/-- `j.contains(key)`. -/
def Json.hasKey (j : Json) (key : String) : Bool :=
  (j.lookup key).isSome

/-- `j.is_object()`. -/
def Json.isObject : Json → Bool
  | .obj _ => true
  | _ => false

/-- The keys of a JSON object, in stored (sorted) order. -/
def Json.keys : Json → List String
  | .obj fields => fields.map Prod.fst
  | _ => []

/-! ## Configuration model (`src/config/dpdk_config.h`) -/

/-- A single `(port, queue)` assignment (`struct QueueAssignment`). -/
structure QueueAssignment where
  port_id : Nat
  queue_id : Nat
deriving Repr, DecidableEq, Inhabited

/-- Per-worker configuration (`struct PmdThreadConfig`). -/
structure PmdThreadConfig where
  lcore_id : Nat
  rx_queues : List QueueAssignment := []
  tx_queues : List QueueAssignment := []
  processor_name : String := ""
deriving Repr, DecidableEq, Inhabited

/-- Per-port configuration (`struct DpdkPortConfig`). -/
structure DpdkPortConfig where
  port_id : Nat
  num_rx_queues : Nat
  num_tx_queues : Nat
  num_descriptors : Nat
  mbuf_pool_size : Nat
  mbuf_size : Nat
deriving Repr, DecidableEq, Inhabited

/-- Top-level configuration (`struct DpdkConfig`). -/
structure DpdkConfig where
  core_mask : Option String := none
  memory_channels : Option Int := none
  pci_allowlist : List String := []
  pci_blocklist : List String := []
  log_level : Option Int := none
  huge_pages : Option Int := none
  ports : List DpdkPortConfig := []
  pmd_threads : List PmdThreadConfig := []
  additional_params : List (String × String) := []
deriving Repr, DecidableEq, Inhabited

/-- `absl::Status` values produced by the embedded components. -/
inductive Status where
  | ok
  | invalidArgument (msg : String)
  | internalError (msg : String)
deriving Repr, DecidableEq, Inhabited

/-! ## Config validator (`src/config/config_validator.cc`) -/

/-- Hex-digit test used by `ConfigValidator::IsValidHexString`
(`0-9`, `a-f`, `A-F`), on character codes. -/
def isHexDigitChar (c : Char) : Bool :=
  (48 ≤ c.toNat && c.toNat ≤ 57) ||
  (97 ≤ c.toNat && c.toNat ≤ 102) ||
  (65 ≤ c.toNat && c.toNat ≤ 70)

/-- Strip an optional leading `0x`/`0X` (requires at least two characters),
as both `IsValidHexString` and `ParseCoremask` do. -/
def stripHexPrefix (l : List Char) : List Char :=
  match l with
  | '0' :: c :: rest => if c = 'x' ∨ c = 'X' then rest else l
  | _ => l

/-- `ConfigValidator::IsValidHexString`: non-empty, optional `0x`/`0X`
prefix, at least one hex digit, all remaining characters hex digits. -/
def IsValidHexString (s : String) : Bool :=
  let l := s.data
  if l.isEmpty then false
  else
    let rest := stripHexPrefix l
    !rest.isEmpty && rest.all isHexDigitChar

/-- `ConfigValidator::IsValidPciAddress`: the regex
`^[0-9a-fA-F]{4}:[0-9a-fA-F]{2}:[0-9a-fA-F]{2}\.[0-9a-fA-F]$`. -/
def IsValidPciAddress (s : String) : Bool :=
  match s.data with
  | [d1, d2, d3, d4, c1, b1, b2, c2, v1, v2, p, f1] =>
    isHexDigitChar d1 && isHexDigitChar d2 && isHexDigitChar d3 && isHexDigitChar d4 &&
    c1 = ':' && isHexDigitChar b1 && isHexDigitChar b2 &&
    c2 = ':' && isHexDigitChar v1 && isHexDigitChar v2 &&
    p = '.' && isHexDigitChar f1
  | _ => false

/-- `ConfigValidator::IsValidLogLevel`: `level >= 0 && level <= 8`. -/
def IsValidLogLevel (level : Int) : Bool :=
  decide (0 ≤ level ∧ level ≤ 8)

/-- `ConfigValidator::IsPowerOfTwo`: `n > 0 && (n & (n - 1)) == 0`. -/
def IsPowerOfTwo (n : Nat) : Bool :=
  decide (0 < n) && decide (n &&& (n - 1) = 0)

/-- Whitespace per C `isspace` in the default locale, consumed by
`strtoull` before the number. -/
def isSpaceChar (c : Char) : Bool :=
  c.toNat = 32 || c.toNat = 9 || c.toNat = 10 ||
  c.toNat = 11 || c.toNat = 12 || c.toNat = 13

/-- Value of a single hex digit character. -/
def hexDigitVal (c : Char) : Nat :=
  if 48 ≤ c.toNat && c.toNat ≤ 57 then c.toNat - 48
  else if 97 ≤ c.toNat && c.toNat ≤ 102 then c.toNat - 97 + 10
  else c.toNat - 65 + 10

/-- Mathematical value of a hex digit string (most significant first).
This is also the spec-side value of `u64::from_str_radix(s, 16)` whenever
that call succeeds (all characters hex digits, value below `2^64`). -/
def hexDigitsVal (l : List Char) : Nat :=
  l.foldl (fun acc c => 16 * acc + hexDigitVal c) 0

/-- C `strtoull(s, _, 16)`: skip leading whitespace, optional sign,
optional `0x`/`0X`, then the longest run of hex digits; the result
saturates at `ULLONG_MAX` on overflow, and a minus sign negates the
value in unsigned (mod `2^64`) arithmetic. -/
def strtoull16 (l : List Char) : Nat :=
  let l1 := l.dropWhile isSpaceChar
  let signed : Bool × List Char :=
    match l1 with
    | c :: rest =>
      if c = '-' then (true, rest)
      else if c = '+' then (false, rest)
      else (false, l1)
    | [] => (false, [])
  let l2 := signed.2
  let l3 :=
    match l2 with
    | a :: c :: rest => if a = '0' ∧ (c = 'x' ∨ c = 'X') then rest else l2
    | _ => l2
  let digits := l3.takeWhile isHexDigitChar
  let v := hexDigitsVal digits
  let v2 := if 2 ^ 64 ≤ v then 2 ^ 64 - 1 else v
  if signed.1 then (2 ^ 64 - v2) % 2 ^ 64 else v2

/-- `ConfigValidator::ParseCoremask`: absent or empty mask gives the empty
set; otherwise strip the optional `0x`/`0X` prefix, convert with
`strtoull(_, _, 16)` and collect the indices of set bits `0..63`.
The C++ returns an `unordered_set`; the embedding lists the members in
ascending bit order (the order the loop inserts them). -/
def ParseCoremask (core_mask : Option String) : List Nat :=
  match core_mask with
  | none => []
  | some s =>
    if s.data.isEmpty then []
    else
      (List.range 64).filter (fun i => (strtoull16 (stripHexPrefix s.data)).testBit i)

/-- `ConfigValidator::DetermineMainLcore`: the least available lcore,
`0` when the mask is absent/empty. -/
def DetermineMainLcore (core_mask : Option String) : Nat :=
  match ParseCoremask core_mask with
  | [] => 0
  | h :: t => t.foldl Nat.min h

/-- `ConfigValidator::FindPort`: first port with the given id. -/
def FindPort (ports : List DpdkPortConfig) (port_id : Nat) : Option DpdkPortConfig :=
  ports.find? (fun p => p.port_id = port_id)

/-- The per-worker lcore loop of `ConfigValidator::Validate`: each worker's
lcore must not be the main lcore, must be in the coremask, and must not
repeat (`seen_lcores` accumulates the lcores already accepted). -/
def checkWorkerLcores (available : List Nat) (main : Nat) (seen : List Nat) :
    List PmdThreadConfig → Status
  | [] => .ok
  | w :: rest =>
    if w.lcore_id = main then
      .invalidArgument ("PMD thread cannot use main lcore " ++ toString w.lcore_id ++
        " (reserved for control plane)")
    else if w.lcore_id ∉ available then
      .invalidArgument ("PMD thread lcore " ++ toString w.lcore_id ++ " is not in coremask")
    else if w.lcore_id ∈ seen then
      .invalidArgument ("Duplicate lcore assignment: " ++ toString w.lcore_id)
    else
      checkWorkerLcores available main (w.lcore_id :: seen) rest

/-- The inner RX-queue loop of `Validate` for one worker: each assignment
must name a declared port, lie below `num_rx_queues`, and not repeat
globally (`seen` is the cross-worker `seen_rx_queues` set). Returns the
updated seen set. The `(max: …)` of the message prints
`port->num_rx_queues - 1` after C integer promotion, hence as `Int`. -/
def checkRxThread (ports : List DpdkPortConfig) (lcore : Nat)
    (seen : List (Nat × Nat)) : List QueueAssignment → Except String (List (Nat × Nat))
  | [] => .ok seen
  | q :: rest =>
    match FindPort ports q.port_id with
    | none =>
      .error ("PMD thread on lcore " ++ toString lcore ++ ": unknown port " ++
        toString q.port_id)
    | some port =>
      if port.num_rx_queues ≤ q.queue_id then
        .error ("PMD thread on lcore " ++ toString lcore ++ ": RX queue " ++
          toString q.queue_id ++ " out of range for port " ++ toString q.port_id ++
          " (max: " ++ toString ((port.num_rx_queues : Int) - 1) ++ ")")
      else if (q.port_id, q.queue_id) ∈ seen then
        .error ("Duplicate RX queue assignment: port " ++ toString q.port_id ++
          ", queue " ++ toString q.queue_id)
      else
        checkRxThread ports lcore ((q.port_id, q.queue_id) :: seen) rest

/-- The outer RX loop of `Validate`, threading the global seen set across
workers. -/
def checkRxAll (ports : List DpdkPortConfig) (seen : List (Nat × Nat)) :
    List PmdThreadConfig → Except String (List (Nat × Nat))
  | [] => .ok seen
  | w :: rest =>
    match checkRxThread ports w.lcore_id seen w.rx_queues with
    | .error e => .error e
    | .ok s => checkRxAll ports s rest

/-- The inner TX-queue loop of `Validate` for one worker (mirror of the RX
loop against `num_tx_queues`). -/
def checkTxThread (ports : List DpdkPortConfig) (lcore : Nat)
    (seen : List (Nat × Nat)) : List QueueAssignment → Except String (List (Nat × Nat))
  | [] => .ok seen
  | q :: rest =>
    match FindPort ports q.port_id with
    | none =>
      .error ("PMD thread on lcore " ++ toString lcore ++ ": unknown port " ++
        toString q.port_id)
    | some port =>
      if port.num_tx_queues ≤ q.queue_id then
        .error ("PMD thread on lcore " ++ toString lcore ++ ": TX queue " ++
          toString q.queue_id ++ " out of range for port " ++ toString q.port_id ++
          " (max: " ++ toString ((port.num_tx_queues : Int) - 1) ++ ")")
      else if (q.port_id, q.queue_id) ∈ seen then
        .error ("Duplicate TX queue assignment: port " ++ toString q.port_id ++
          ", queue " ++ toString q.queue_id)
      else
        checkTxThread ports lcore ((q.port_id, q.queue_id) :: seen) rest

/-- The outer TX loop of `Validate`. -/
def checkTxAll (ports : List DpdkPortConfig) (seen : List (Nat × Nat)) :
    List PmdThreadConfig → Except String (List (Nat × Nat))
  | [] => .ok seen
  | w :: rest =>
    match checkTxThread ports w.lcore_id seen w.tx_queues with
    | .error e => .error e
    | .ok s => checkTxAll ports s rest

/-- The port loop of `Validate`: duplicate ids, queue-count minima,
power-of-two descriptor count, pool and mbuf positivity. The
below-recommended-pool-size case only logs a warning and is not an
error, so it does not appear in the result. -/
def checkPorts (seen : List Nat) : List DpdkPortConfig → Status
  | [] => .ok
  | p :: rest =>
    if p.port_id ∈ seen then
      .invalidArgument ("Duplicate port_id: " ++ toString p.port_id)
    else if p.num_rx_queues = 0 then
      .invalidArgument ("Port " ++ toString p.port_id ++ ": num_rx_queues must be > 0")
    else if p.num_tx_queues = 0 then
      .invalidArgument ("Port " ++ toString p.port_id ++ ": num_tx_queues must be > 0")
    else if !IsPowerOfTwo p.num_descriptors then
      .invalidArgument ("Port " ++ toString p.port_id ++
        ": num_descriptors must be a power of 2")
    else if p.mbuf_pool_size = 0 then
      .invalidArgument ("Port " ++ toString p.port_id ++ ": mbuf_pool_size must be > 0")
    else if p.mbuf_size = 0 then
      .invalidArgument ("Port " ++ toString p.port_id ++ ": mbuf_size must be > 0")
    else
      checkPorts (p.port_id :: seen) rest

/-- The global-option prefix of `Validate`, in source order: core_mask hex
format, memory_channels positivity, allowlist PCI format, blocklist PCI
format, allow/block disjointness, log_level range, huge_pages
positivity. -/
def validateGlobals (config : DpdkConfig) : Status :=
  if config.core_mask.any (fun m => !IsValidHexString m) then
    .invalidArgument "core_mask must be a valid hexadecimal string"
  else if config.memory_channels.any (fun n => decide (n ≤ 0)) then
    .invalidArgument "memory_channels must be positive"
  else
    match config.pci_allowlist.find? (fun a => !IsValidPciAddress a) with
    | some addr => .invalidArgument ("Invalid PCI address in allowlist: " ++ addr)
    | none =>
      match config.pci_blocklist.find? (fun a => !IsValidPciAddress a) with
      | some addr => .invalidArgument ("Invalid PCI address in blocklist: " ++ addr)
      | none =>
        match config.pci_allowlist.find? (fun a => config.pci_blocklist.contains a) with
        | some addr =>
          .invalidArgument ("PCI address appears in both allowlist and blocklist: " ++ addr)
        | none =>
          if config.log_level.any (fun l => !IsValidLogLevel l) then
            .invalidArgument "log_level must be between 0 and 8"
          else if config.huge_pages.any (fun n => decide (n ≤ 0)) then
            .invalidArgument "huge_pages must be positive"
          else .ok

/-- The PMD-thread section of `Validate` (entered only when the worker
list is non-empty): derives the available lcores and the main lcore,
requires a non-main worker lcore to exist, then runs the per-worker
lcore checks and the RX and TX assignment checks. -/
def validateWorkers (config : DpdkConfig) : Status :=
  if config.pmd_threads.isEmpty then .ok
  else if ((ParseCoremask config.core_mask).filter
      (fun l => l ≠ DetermineMainLcore config.core_mask)).isEmpty then
    .invalidArgument "No worker lcores available (coremask only contains main lcore)"
  else
    match checkWorkerLcores (ParseCoremask config.core_mask)
        (DetermineMainLcore config.core_mask) [] config.pmd_threads with
    | .ok =>
      match checkRxAll config.ports [] config.pmd_threads with
      | .error e => .invalidArgument e
      | .ok _ =>
        match checkTxAll config.ports [] config.pmd_threads with
        | .error e => .invalidArgument e
        | .ok _ => .ok
    | e => e

/-- `ConfigValidator::Validate`: the sequential early-return chain —
global options, then the PMD-thread section, then the port section. -/
def Validate (config : DpdkConfig) : Status :=
  match validateGlobals config with
  | .ok =>
    match validateWorkers config with
    | .ok => checkPorts [] config.ports
    | e => e
  | e => e

/-! ## Config printer (`src/config/config_printer.cc`)

`ConfigPrinter::ToJson` builds a `nlohmann::json` object and dumps it;
the textual dump is the black-box JSON serializer and stays outside the
embedding, which produces the JSON value itself. The printer re-parses
stored passthrough literals (`json::parse(value)` with a fallback to the
raw string); that black-box text parse is the `parseLit` parameter. -/

/-- One port entry as printed (fields assigned in source order into a
default-constructed json value, which key-sorts them). -/
def portToJson (port : DpdkPortConfig) : Json :=
  ((((((Json.null.setKey "port_id" (.num port.port_id)).setKey
      "num_rx_queues" (.num port.num_rx_queues)).setKey
      "num_tx_queues" (.num port.num_tx_queues)).setKey
      "num_descriptors" (.num port.num_descriptors)).setKey
      "mbuf_pool_size" (.num port.mbuf_pool_size)).setKey
      "mbuf_size" (.num port.mbuf_size))

/-- One queue assignment as printed. -/
def queueToJson (q : QueueAssignment) : Json :=
  (Json.null.setKey "port_id" (.num q.port_id)).setKey "queue_id" (.num q.queue_id)

/-- One worker entry as printed: `lcore_id` always; `rx_queues`,
`tx_queues` and `processor` only when non-empty. -/
def pmdThreadToJson (t : PmdThreadConfig) : Json :=
  let j := Json.null.setKey "lcore_id" (.num t.lcore_id)
  let j := if t.rx_queues.isEmpty then j
    else j.setKey "rx_queues" (.arr (t.rx_queues.map queueToJson))
  let j := if t.tx_queues.isEmpty then j
    else j.setKey "tx_queues" (.arr (t.tx_queues.map queueToJson))
  if t.processor_name = "" then j
  else j.setKey "processor" (.str t.processor_name)

/-- `ConfigPrinter::ToJson`, up to the final textual dump: optional
scalars when present, list fields when non-empty, and passthrough
parameters as an `"additional_params"` array of `[key, value]` pairs
where each value is re-parsed as JSON when possible. -/
def ToJson (parseLit : String → Option Json) (config : DpdkConfig) : Json :=
  let j := Json.obj []
  let j := match config.core_mask with
    | some m => j.setKey "core_mask" (.str m)
    | none => j
  let j := match config.memory_channels with
    | some n => j.setKey "memory_channels" (.num n)
    | none => j
  let j := if config.pci_allowlist.isEmpty then j
    else j.setKey "pci_allowlist" (.arr (config.pci_allowlist.map Json.str))
  let j := if config.pci_blocklist.isEmpty then j
    else j.setKey "pci_blocklist" (.arr (config.pci_blocklist.map Json.str))
  let j := match config.log_level with
    | some n => j.setKey "log_level" (.num n)
    | none => j
  let j := match config.huge_pages with
    | some n => j.setKey "huge_pages" (.num n)
    | none => j
  let j := if config.ports.isEmpty then j
    else j.setKey "ports" (.arr (config.ports.map portToJson))
  let j := if config.pmd_threads.isEmpty then j
    else j.setKey "pmd_threads" (.arr (config.pmd_threads.map pmdThreadToJson))
  if config.additional_params.isEmpty then j
  else j.setKey "additional_params" (.arr (config.additional_params.map (fun kv =>
    .arr [.str kv.1, match parseLit kv.2 with | some v => v | none => .str kv.2])))

/-! ## Config parser (`src/config/config_parser.cc`)

`ConfigParser::ParseString` first rejects empty content, runs the
black-box JSON text parse (syntax errors carry the byte offset), then
walks the resulting value; the embedding starts from the parsed value.
Unsigned narrowing of `get<uintN_t>` and the signed narrowing of
`get<int>` wrap modulo the target width. -/

/-- `get<uint16_t>` on a non-negative JSON integer. -/
def toU16 (n : Int) : Nat := n.toNat % 65536

/-- `get<uint32_t>` on a non-negative JSON integer. -/
def toU32 (n : Int) : Nat := n.toNat % 4294967296

/-- `get<int>` on a JSON integer (wrap to 32-bit two's complement). -/
def toI32 (n : Int) : Int := (n + 2 ^ 31) % 2 ^ 32 - 2 ^ 31

/-- Read a required field that must be `is_number_unsigned()` (a JSON
integer stored unsigned, i.e. non-negative). -/
def getUnsignedField (j : Json) (field missingMsg typeMsg : String) : Except String Int :=
  match j.lookup field with
  | none => .error missingMsg
  | some (.num n) => if 0 ≤ n then .ok n else .error typeMsg
  | some _ => .error typeMsg

/-- Elements of `pci_allowlist` / `pci_blocklist` must all be strings. -/
def parseStringList (msg : String) : List Json → Except String (List String)
  | [] => .ok []
  | .str s :: rest => do
    let l ← parseStringList msg rest
    pure (s :: l)
  | _ :: _ => .error msg

/-- One entry of the `ports` array. -/
def parsePortEntry (port_json : Json) : Except String DpdkPortConfig := do
  if !port_json.isObject then
    throw "Each element in 'ports' array must be an object"
  let pid ← getUnsignedField port_json "port_id"
    "Port configuration missing required field: port_id"
    "Field 'port_id' must be an unsigned integer"
  let port_id := toU16 pid
  let nrx ← getUnsignedField port_json "num_rx_queues"
    ("Port " ++ toString port_id ++ " missing required field: num_rx_queues")
    ("Port " ++ toString port_id ++ ": field 'num_rx_queues' must be an unsigned integer")
  let ntx ← getUnsignedField port_json "num_tx_queues"
    ("Port " ++ toString port_id ++ " missing required field: num_tx_queues")
    ("Port " ++ toString port_id ++ ": field 'num_tx_queues' must be an unsigned integer")
  let nd ← getUnsignedField port_json "num_descriptors"
    ("Port " ++ toString port_id ++ " missing required field: num_descriptors")
    ("Port " ++ toString port_id ++ ": field 'num_descriptors' must be an unsigned integer")
  let pool ← getUnsignedField port_json "mbuf_pool_size"
    ("Port " ++ toString port_id ++ " missing required field: mbuf_pool_size")
    ("Port " ++ toString port_id ++ ": field 'mbuf_pool_size' must be an unsigned integer")
  let msz ← getUnsignedField port_json "mbuf_size"
    ("Port " ++ toString port_id ++ " missing required field: mbuf_size")
    ("Port " ++ toString port_id ++ ": field 'mbuf_size' must be an unsigned integer")
  pure { port_id := port_id, num_rx_queues := toU16 nrx, num_tx_queues := toU16 ntx,
         num_descriptors := toU16 nd, mbuf_pool_size := toU32 pool, mbuf_size := toU16 msz }

/-- The `ports` array. -/
def parsePortList : List Json → Except String (List DpdkPortConfig)
  | [] => .ok []
  | pj :: rest => do
    let p ← parsePortEntry pj
    let ps ← parsePortList rest
    pure (p :: ps)

/-- One `rx_queues`/`tx_queues` element list (the field name only enters
the not-an-object message). -/
def parseQueueList (lcore : Nat) (fieldName : String) :
    List Json → Except String (List QueueAssignment)
  | [] => .ok []
  | qj :: rest => do
    if !qj.isObject then
      throw ("PMD thread on lcore " ++ toString lcore ++ ": each element in '" ++
        fieldName ++ "' must be an object")
    let pid ← getUnsignedField qj "port_id"
      ("Queue assignment for lcore " ++ toString lcore ++ " missing required field: port_id")
      ("Queue assignment for lcore " ++ toString lcore ++
        ": field 'port_id' must be an unsigned integer")
    let qid ← getUnsignedField qj "queue_id"
      ("Queue assignment for lcore " ++ toString lcore ++ " missing required field: queue_id")
      ("Queue assignment for lcore " ++ toString lcore ++
        ": field 'queue_id' must be an unsigned integer")
    let qs ← parseQueueList lcore fieldName rest
    pure ({ port_id := toU16 pid, queue_id := toU16 qid } :: qs)

/-- One entry of the `pmd_threads` array. The parser reads `lcore_id`,
`rx_queues` and `tx_queues` only; no `processor` key is read, so
`processor_name` keeps the default-constructed empty string. -/
def parsePmdThread (thread_json : Json) : Except String PmdThreadConfig := do
  if !thread_json.isObject then
    throw "Each element in 'pmd_threads' must be an object"
  let lc ← getUnsignedField thread_json "lcore_id"
    "PMD thread missing required field: lcore_id"
    "Field 'lcore_id' must be an unsigned integer"
  let lcore := toU32 lc
  let rx ← match thread_json.lookup "rx_queues" with
    | none => pure []
    | some (.arr elems) => parseQueueList lcore "rx_queues" elems
    | some _ =>
      throw ("PMD thread on lcore " ++ toString lcore ++ ": field 'rx_queues' must be an array")
  let tx ← match thread_json.lookup "tx_queues" with
    | none => pure []
    | some (.arr elems) => parseQueueList lcore "tx_queues" elems
    | some _ =>
      throw ("PMD thread on lcore " ++ toString lcore ++ ": field 'tx_queues' must be an array")
  pure { lcore_id := lcore, rx_queues := rx, tx_queues := tx, processor_name := "" }

/-- The `pmd_threads` array. -/
def parsePmdThreadList : List Json → Except String (List PmdThreadConfig)
  | [] => .ok []
  | tj :: rest => do
    let t ← parsePmdThread tj
    let ts ← parsePmdThreadList rest
    pure (t :: ts)

/-- The recognized top-level keys skipped by the passthrough loop. -/
def knownFields : List String :=
  ["core_mask", "memory_channels", "pci_allowlist", "pci_blocklist",
   "log_level", "huge_pages", "ports", "pmd_threads"]

/-- `ConfigParser::ParseString` from the parsed JSON value on: object
root, recognized fields with typed errors, then every unrecognized key
in stored order as a passthrough `(key, literal)` pair — the literal is
the string itself for string values and the serialized form (`dump`,
the black-box serializer parameter) otherwise. -/
def ParseConfigJson (dump : Json → String) (j : Json) : Except String DpdkConfig := do
  if !j.isObject then
    throw "Configuration must be a JSON object"
  let core_mask ← match j.lookup "core_mask" with
    | none => pure none
    | some (.str s) => pure (some s)
    | some _ => throw "Field 'core_mask' must be a string"
  let memory_channels ← match j.lookup "memory_channels" with
    | none => pure none
    | some (.num n) => pure (some (toI32 n))
    | some _ => throw "Field 'memory_channels' must be an integer"
  let pci_allowlist ← match j.lookup "pci_allowlist" with
    | none => pure []
    | some (.arr elems) => parseStringList "All elements in 'pci_allowlist' must be strings" elems
    | some _ => throw "Field 'pci_allowlist' must be an array"
  let pci_blocklist ← match j.lookup "pci_blocklist" with
    | none => pure []
    | some (.arr elems) => parseStringList "All elements in 'pci_blocklist' must be strings" elems
    | some _ => throw "Field 'pci_blocklist' must be an array"
  let log_level ← match j.lookup "log_level" with
    | none => pure none
    | some (.num n) => pure (some (toI32 n))
    | some _ => throw "Field 'log_level' must be an integer"
  let huge_pages ← match j.lookup "huge_pages" with
    | none => pure none
    | some (.num n) => pure (some (toI32 n))
    | some _ => throw "Field 'huge_pages' must be an integer"
  let ports ← match j.lookup "ports" with
    | none => pure []
    | some (.arr elems) => parsePortList elems
    | some _ => throw "Field 'ports' must be an array"
  let pmd_threads ← match j.lookup "pmd_threads" with
    | none => pure []
    | some (.arr elems) => parsePmdThreadList elems
    | some _ => throw "Field 'pmd_threads' must be an array"
  let fields := match j with | .obj fs => fs | _ => []
  let additional := (fields.filter (fun kv => !knownFields.contains kv.1)).map
    (fun kv => (kv.1, match kv.2 with | .str s => s | v => dump v))
  pure { core_mask := core_mask, memory_channels := memory_channels,
         pci_allowlist := pci_allowlist, pci_blocklist := pci_blocklist,
         log_level := log_level, huge_pages := huge_pages,
         ports := ports, pmd_threads := pmd_threads,
         additional_params := additional }

/-! ## Worker (PMD) manager wait (`src/config/pmd_thread_manager.cc`)

`PMDThreadManager::WaitForThreads` iterates the launched-thread map and
calls `rte_eal_wait_lcore` (which blocks until that worker function has
returned and yields its exit code) for each entry; a non-zero code makes
it return an internal error immediately. The embedding takes the
launched `(lcore_id, exit code)` pairs in iteration order; the second
component of the result records which lcores were actually waited on. -/
def WaitForThreads : List (Nat × Int) → Status × List Nat
  | [] => (.ok, [])
  | (lcore, ret) :: rest =>
    if ret ≠ 0 then
      (.internalError ("PMD thread on lcore " ++ toString lcore ++
        " returned error: " ++ toString ret), [lcore])
    else
      let (st, ws) := WaitForThreads rest
      (st, lcore :: ws)

/-! ## Worker hot loop and QSBR wiring (spec-modelled)

The QSBR-wired worker path is declared in the repository
(`PMDThreadManager::SetRcuManager` in `pmd_thread_manager.h`, the
three-argument `PmdThread` constructor taking a `rte_rcu_qsbr*` in
`pmd_thread.h`) and exercised by `control_plane.cc`, but its definition
is absent from the sources: `pmd_thread.cc` holds a stale placeholder
whose constructor does not even match its own header, `SetRcuManager`
is defined nowhere, and the registry launcher in `processor_registry.h`
lacks the QSBR parameter the headers describe. -/

/-- An observable event of the worker hot loop. -/
inductive WorkerEvent where
  | procIter
  | reportQuiescent
deriving Repr, DecidableEq

/-- Modelled from the spec: the launcher's hot loop, missing from src/
(`pmd_thread.cc` holds only a placeholder). `obs` is the successive
relaxed loads of the shared stop flag; while the flag is not observed,
each iteration runs the processor's process-one-iteration body and, when
a QSBR manager is wired, reports a quiescent state; the launcher returns
0 on clean exit. -/
def workerLoop (wired : Bool) : List Bool → List WorkerEvent × Int
  | [] => ([], 0)
  | stop :: rest =>
    if stop then ([], 0)
    else
      let (evs, ret) := workerLoop wired rest
      ((WorkerEvent.procIter :: if wired then [WorkerEvent.reportQuiescent] else []) ++ evs,
        ret)

/-- A launch-side action of the worker manager. -/
inductive LaunchAction where
  | register (lcore : Nat)
  | launch (lcore : Nat)
deriving Repr, DecidableEq

/-- Modelled from the spec: the launch sequence of the worker manager
(`PMDThreadManager::LaunchThreads` with an RCU manager wired — its
definition, `SetRcuManager`, is missing from src/): each worker whose
lcore is not the main lcore is registered with the QSBR manager (when
one is wired) and then launched on its core. -/
def launchActions (wired : Bool) (mainLcore : Nat) : List Nat → List LaunchAction
  | [] => []
  | w :: rest =>
    (if w = mainLcore then []
     else (if wired then [LaunchAction.register w] else []) ++ [LaunchAction.launch w]) ++
    launchActions wired mainLcore rest

/-! ## QSBR (RCU) manager (`src/rcu/rcu_manager.cc`)

Deferred work items are identified by ids; whether an item's
grace-period token has completed at a poll tick
(`rte_rcu_qsbr_check`) is the tick's `done` predicate. The poll timer
itself lives in the reactor; the claims quantify over the delivered
ticks, so the timer handle is not part of the state. -/

/-- Manager state: the running flag, the consumer-owned pending list,
the MPSC queue contents (oldest first) and the history of invoked
callbacks. -/
structure RcuState where
  running : Bool
  pending : List Nat
  queue : List Nat
  invoked : List Nat
deriving Repr, DecidableEq

/-- `RcuManager::DrainMpscQueue`: pop every item and append it to the
pending list. -/
def drainMpsc (s : RcuState) : RcuState :=
  { s with pending := s.pending ++ s.queue, queue := [] }

/-- `RcuManager::ProcessPendingItems` over a pending list: returns the
items kept (token not yet complete) and the callbacks invoked, both in
list order. -/
def processPendingItems (done : Nat → Bool) : List Nat → List Nat × List Nat
  | [] => ([], [])
  | t :: rest =>
    let (rem, inv) := processPendingItems done rest
    if done t then (rem, t :: inv) else (t :: rem, inv)

/-- `RcuManager::Stop`: a no-op unless running; otherwise clear the
running flag, cancel the timer, drain the MPSC queue into pending, then
discard all pending items without invoking their callbacks. -/
def rcuStop (s : RcuState) : RcuState :=
  if !s.running then s
  else
    let s1 := drainMpsc { s with running := false }
    { s1 with pending := [] }

/-- `RcuManager::OnPollTimer`: a no-op unless running; otherwise drain
the MPSC queue and process pending items, invoking each completed
callback (re-arming when items remain is timer bookkeeping outside the
state). -/
def onPollTimer (done : Nat → Bool) (s : RcuState) : RcuState :=
  if !s.running then s
  else
    let s1 := drainMpsc s
    let (rem, inv) := processPendingItems done s1.pending
    { s1 with pending := rem, invoked := s1.invoked ++ inv }

/-- Events the manager can observe after `Stop`: delivered poll-timer
ticks (with the token-completion predicate in force at that tick) and
producer-side `PostDeferredWork` pushes. -/
inductive RcuEvent where
  | tick (done : Nat → Bool)
  | post (item : Nat)

/-- One event step (`OnPollTimer` / `MpscQueue::Push` via
`PostDeferredWork`). -/
def rcuStep (s : RcuState) (e : RcuEvent) : RcuState :=
  match e with
  | .tick done => onPollTimer done s
  | .post item => { s with queue := s.queue ++ [item] }

/-! ## MPSC queue (`src/rcu/mpsc_queue.h`), sequential semantics

Nodes are identified by ids with the permanent sentinel (stub) node as
id `0`; the intrusive `next` links form the heap. The claim is about a
single-thread push/pop sequence, so the atomics execute in program
order. -/

/-- Queue state: the `next` link of every node, the producer-side `head`
and the consumer-side `tail`. -/
structure QState where
  next : Nat → Option Nat
  head : Nat
  tail : Nat

/-- Pointwise update of the `next`-link heap. -/
def updFn (f : Nat → Option Nat) (k : Nat) (v : Option Nat) : Nat → Option Nat :=
  fun x => if x = k then v else f x

/-- The freshly constructed queue: `stub_.next = nullptr`,
`head_ = tail_ = &stub_`. -/
def qInit : QState :=
  { next := fun _ => none, head := 0, tail := 0 }

/-- `MpscQueue::Push`: clear the node's `next`, exchange it into `head_`,
link the predecessor's `next` to it. -/
def qPush (node : Nat) (s : QState) : QState :=
  let next1 := updFn s.next node none
  let prev := s.head
  { next := updFn next1 prev (some node), head := node, tail := s.tail }

/-- The tail of `MpscQueue::Pop` after the stub-skipping prologue:
`tail` is the candidate node and `next` its loaded link. -/
def qPopCont (s : QState) (tail : Nat) (next : Option Nat) : Option Nat × QState :=
  match next with
  | some n => (some tail, { s with tail := n })
  | none =>
    let headNode := s.head
    if tail ≠ headNode then (none, s)
    else
      let s2 := qPush 0 s
      match s2.next tail with
      | some n => (some tail, { s2 with tail := n })
      | none => (none, s2)

/-- `MpscQueue::Pop`: empty-queue check at the stub, stub skip, then the
common path (including the re-insertion of the stub when the last node
is being dequeued). -/
def qPop (s : QState) : Option Nat × QState :=
  let tail := s.tail
  let next := s.next tail
  if tail = 0 then
    match next with
    | none => (none, s)
    | some n => qPopCont { s with tail := n } n (s.next n)
  else
    qPopCont s tail next

/-! ## Command handler (`src/control/command_handler.cc`)

`HandleStatus` builds its result from `rte_lcore_id()` (the calling
main lcore) and the thread manager's launched map; the manager pointer
may be null. The shutdown callback side effect of `HandleShutdown` is
outside the response value. -/

/-- The handler's environment: the current lcore and, when a thread
manager is wired, the lcore keys of its launched-thread map
(`GetThreadCount` is the map's size, `GetLcoreIds` its keys). -/
structure HandlerState where
  currentLcore : Nat
  threadManager : Option (List Nat)

/-- A decoded command request. -/
structure CommandRequest where
  command : String
  params : Json

/-- A command response prior to JSON formatting: `status` plus `result`
(success) or `error` (failure). -/
structure CommandResponse where
  status : String
  result : Json
  error : String

/-- `CommandHandler::HandleShutdown` (the shutdown-callback invocation is
a side effect outside the response). -/
def HandleShutdown (_st : HandlerState) (_params : Json) : CommandResponse :=
  { status := "success",
    result := (Json.obj []).setKey "message" (.str "Shutdown initiated"),
    error := "" }

/-- `CommandHandler::HandleStatus`. -/
def HandleStatus (st : HandlerState) (_params : Json) : CommandResponse :=
  let count : Nat := match st.threadManager with
    | some lcores => lcores.length
    | none => 0
  { status := "success",
    result := (((Json.obj []).setKey "main_lcore" (.num st.currentLcore)).setKey
      "num_pmd_threads" (.num count)).setKey "uptime_seconds" (.num 0),
    error := "" }

/-- `CommandHandler::HandleGetThreads`. -/
def HandleGetThreads (st : HandlerState) (_params : Json) : CommandResponse :=
  let threads : List Json := match st.threadManager with
    | some lcores => lcores.map (fun l => Json.null.setKey "lcore_id" (.num l))
    | none => []
  { status := "success",
    result := (Json.obj []).setKey "threads" (.arr threads),
    error := "" }

/-- `CommandHandler::ExecuteCommand`: dispatch on the command name. -/
def ExecuteCommand (st : HandlerState) (request : CommandRequest) : CommandResponse :=
  if request.command = "shutdown" then HandleShutdown st request.params
  else if request.command = "status" then HandleStatus st request.params
  else if request.command = "get_threads" then HandleGetThreads st request.params
  else
    { status := "error", result := Json.null,
      error := "Unknown command: " ++ request.command }

/-! ## Concrete example configurations used by the theorems -/

/-- A config whose only flaws are an out-of-range log_level and a
non-positive huge_pages. -/
def cfgLogHuge : DpdkConfig := { log_level := some 9, huge_pages := some 0 }

/-- A worker-bearing config whose coremask holds only the main core. -/
def cfgMainOnly : DpdkConfig :=
  { core_mask := some "0x1", pmd_threads := [{ lcore_id := 1 }] }

/-- The S1 example config of the spec, with a non-empty processor name
on its worker (the validator accepts it; `processor_name` is not
consulted by `Validate`). -/
def cfgRoundTripIn : DpdkConfig :=
  { core_mask := some "0xff",
    ports := [{ port_id := 0, num_rx_queues := 4, num_tx_queues := 4,
                num_descriptors := 1024, mbuf_pool_size := 16384, mbuf_size := 2048 }],
    pmd_threads := [{ lcore_id := 1, rx_queues := [⟨0, 0⟩], tx_queues := [⟨0, 0⟩],
                      processor_name := "custom" }] }

/-- What the parser actually returns for the printed form of
`cfgRoundTripIn`: identical except that the worker's processor name has
been dropped (the printer emits a `processor` key the parser never
reads). -/
def cfgRoundTripOut : DpdkConfig :=
  { core_mask := some "0xff",
    ports := [{ port_id := 0, num_rx_queues := 4, num_tx_queues := 4,
                num_descriptors := 1024, mbuf_pool_size := 16384, mbuf_size := 2048 }],
    pmd_threads := [{ lcore_id := 1, rx_queues := [⟨0, 0⟩], tx_queues := [⟨0, 0⟩],
                      processor_name := "" }] }

/-! ## Theorems -/

/-- C9: For every status command request, the command handler returns a
response whose status is "success" and whose result object contains
exactly the three keys `main_lcore`, `num_pmd_threads` and
`uptime_seconds`, with `uptime_seconds` equal to 0. -/
theorem status_command_response (st : HandlerState) (params : Json) :
    (ExecuteCommand st { command := "status", params := params }).status = "success" ∧
    (ExecuteCommand st { command := "status", params := params }).result.keys =
      ["main_lcore", "num_pmd_threads", "uptime_seconds"] ∧
    (ExecuteCommand st { command := "status", params := params }).result.lookup
      "uptime_seconds" = some (.num 0) := by
  obtain ⟨cur, tm⟩ := st
  cases tm <;>
    simp +decide [ExecuteCommand, HandleStatus, Json.setKey, setFields, Json.keys,
      Json.lookup, lookupField]

/-- C7: After the QSBR manager's stop operation — which cancels the poll
timer, drains the MPSC queue into the pending list and discards all
pending items — no pending callback is ever invoked: any sequence of
poll-timer ticks and producer pushes delivered after stop leaves the
invocation history unchanged, and stop of a running manager leaves both
the pending list and the queue empty. -/
theorem stop_never_invokes_pending (s : RcuState) (events : List RcuEvent) :
    (events.foldl rcuStep (rcuStop s)).invoked = s.invoked ∧
    (s.running = true → (rcuStop s).pending = [] ∧ (rcuStop s).queue = []) := by
  have hstopped : (rcuStop s).running = false ∧ (rcuStop s).invoked = s.invoked := by
    cases hr : s.running <;> simp [rcuStop, drainMpsc, hr]
  have hfold : ∀ (es : List RcuEvent) (t : RcuState), t.running = false →
      (es.foldl rcuStep t).invoked = t.invoked ∧ (es.foldl rcuStep t).running = false := by
    intro es
    induction es with
    | nil => intro t ht; exact ⟨rfl, ht⟩
    | cons e rest ih =>
      intro t ht
      have hstep : (rcuStep t e).invoked = t.invoked ∧ (rcuStep t e).running = false := by
        cases e with
        | tick done => simp [rcuStep, onPollTimer, ht]
        | post item => simp [rcuStep, ht]
      have hrest := ih (rcuStep t e) hstep.2
      exact ⟨by rw [List.foldl_cons, hrest.1, hstep.1], by rw [List.foldl_cons]; exact hrest.2⟩
  refine ⟨?_, ?_⟩
  · rw [(hfold events (rcuStop s) hstopped.1).1, hstopped.2]
  · intro hr; simp [rcuStop, drainMpsc, hr]

/-- C7 witness: a running manager with one pending item and one queued
item, hit by a post and a tick whose grace period has completed, still
invokes nothing. -/
theorem stop_never_invokes_pending_witness :
    (([RcuEvent.post 3, RcuEvent.tick (fun _ => true)].foldl rcuStep
        (rcuStop { running := true, pending := [1], queue := [2], invoked := [] })).invoked
      = [] ) ∧
    (rcuStop { running := true, pending := [1], queue := [2], invoked := [] }).pending = [] := by
  have h := stop_never_invokes_pending
    { running := true, pending := [1], queue := [2], invoked := [] }
    [RcuEvent.post 3, RcuEvent.tick (fun _ => true)]
  exact ⟨h.1, (h.2 rfl).1⟩

/-- C8: sequential MPSC push/pop — from the empty queue, pushing a node
and popping twice yields first that node and then the empty result. The
node id must differ from the sentinel id 0 (the sentinel is owned by the
queue and is never a client node). -/
theorem mpsc_push_then_pop_pop (x : Nat) (hx : x ≠ 0) :
    (qPop (qPush x qInit)).1 = some x ∧
    (qPop (qPop (qPush x qInit)).2).1 = none := by
  have hx0 : (x = 0) = False := eq_false hx
  have h0x : (0 = x) = False := eq_false (Ne.symm hx)
  constructor <;>
    simp [qInit, qPush, qPop, qPopCont, updFn, hx0, h0x]

/-- C8 witness: the push/pop/pop law at node id 1. -/
theorem mpsc_push_then_pop_pop_witness :
    (qPop (qPush 1 qInit)).1 = some 1 ∧
    (qPop (qPop (qPush 1 qInit)).2).1 = none :=
  mpsc_push_then_pop_pop 1 (by decide)

/-- C4 counterexample: with launched workers on cores 1, 2, 3 (in
iteration order) whose exit codes are 0, 5, 0, the wait operation
returns at core 2's failure without waiting on core 3 — so it does not
return "only after every launched core has returned" as the claim
states, although the error it reports is the first non-zero exit. -/
theorem wait_for_threads_returns_early :
    (WaitForThreads [(1, 0), (2, 5), (3, 0)]).2 = [1, 2] ∧
    (3, (0 : Int)) ∈ [((1 : Nat), (0 : Int)), (2, 5), (3, 0)] ∧
    3 ∉ (WaitForThreads [(1, 0), (2, 5), (3, 0)]).2 ∧
    (WaitForThreads [(1, 0), (2, 5), (3, 0)]).1 =
      .internalError "PMD thread on lcore 2 returned error: 5" := by
  refine ⟨rfl, by decide, by decide, rfl⟩

/-- C4 amended: the wait operation waits, in iteration order, on every
launched core up to and including the first one with a non-zero exit
code (on every launched core when all exit 0); its result is ok when
all workers exited 0 and otherwise the internal error naming the first
non-zero exit. -/
theorem wait_for_threads_first_error (threads : List (Nat × Int)) :
    WaitForThreads threads =
      ((match threads.dropWhile (fun t => decide (t.2 = 0)) with
        | [] => Status.ok
        | (l, r) :: _ =>
          Status.internalError ("PMD thread on lcore " ++ toString l ++
            " returned error: " ++ toString r)),
       (threads.takeWhile (fun t => decide (t.2 = 0)) ++
        (threads.dropWhile (fun t => decide (t.2 = 0))).take 1).map Prod.fst) := by
  induction threads with
  | nil => rfl
  | cons t rest ih =>
    obtain ⟨l, r⟩ := t
    by_cases hr : r = 0
    · subst hr
      simp [WaitForThreads, ih]
    · simp [WaitForThreads, hr]

/-- C5 counterexample: on a config with both a non-positive `huge_pages`
and an out-of-range `log_level`, Validate returns the log_level error —
not the huge_pages error the claimed check order (integer-option
positivity before log_level range) would produce. -/
theorem validate_log_level_error_first :
    Validate cfgLogHuge = .invalidArgument "log_level must be between 0 and 8" ∧
    Validate cfgLogHuge ≠ .invalidArgument "huge_pages must be positive" := by
  constructor
  · rfl
  · decide

/-- C5 amended: Validate's emission order is core_mask hex format,
memory_channels positivity, allowlist PCI format, blocklist PCI format,
allow/block disjointness, log_level range and then huge_pages
positivity; in particular, when every check before log_level passes and
both log_level is out of range and huge_pages is non-positive, the
log_level error is the one returned. -/
theorem validate_log_level_before_huge_pages (cfg : DpdkConfig)
    (hmask : ∀ m ∈ cfg.core_mask, IsValidHexString m = true)
    (hmem : ∀ n ∈ cfg.memory_channels, 0 < n)
    (hallow : ∀ a ∈ cfg.pci_allowlist, IsValidPciAddress a = true)
    (hblock : ∀ a ∈ cfg.pci_blocklist, IsValidPciAddress a = true)
    (hdisj : ∀ a ∈ cfg.pci_allowlist, a ∉ cfg.pci_blocklist)
    (l : Int) (hl : cfg.log_level = some l) (hlbad : ¬(0 ≤ l ∧ l ≤ 8))
    (hp : Int) (_hh : cfg.huge_pages = some hp) (_hhbad : hp ≤ 0) :
    Validate cfg = .invalidArgument "log_level must be between 0 and 8" := by
  have hg : validateGlobals cfg = .invalidArgument "log_level must be between 0 and 8" := by
    unfold validateGlobals
    have h1 : cfg.core_mask.any (fun m => !IsValidHexString m) = false := by
      cases hm : cfg.core_mask with
      | none => rfl
      | some m => simp [Option.any, hmask m (by simp [hm])]
    have h2 : cfg.memory_channels.any (fun n => decide (n ≤ 0)) = false := by
      cases hm : cfg.memory_channels with
      | none => rfl
      | some n =>
        have := hmem n (by simp [hm])
        simp [Option.any]
        omega
    have h3 : cfg.pci_allowlist.find? (fun a => !IsValidPciAddress a) = none := by
      rw [List.find?_eq_none]
      intro a ha
      simp [hallow a ha]
    have h4 : cfg.pci_blocklist.find? (fun a => !IsValidPciAddress a) = none := by
      rw [List.find?_eq_none]
      intro a ha
      simp [hblock a ha]
    have h5 : cfg.pci_allowlist.find? (fun a => cfg.pci_blocklist.contains a) = none := by
      rw [List.find?_eq_none]
      intro a ha
      simpa using hdisj a ha
    have h6 : cfg.log_level.any (fun v => !IsValidLogLevel v) = true := by
      simp [hl, Option.any, IsValidLogLevel, hlbad]
    simp only [h1, h2, h3, h4, h5, h6]
    simp
  unfold Validate
  rw [hg]

/-- C5 witness: the amended order at the concrete two-flaw config. -/
theorem validate_log_level_before_huge_pages_witness :
    Validate cfgLogHuge = .invalidArgument "log_level must be between 0 and 8" :=
  validate_log_level_before_huge_pages cfgLogHuge
    (by intro m hm; simp [cfgLogHuge] at hm)
    (by intro n hn; simp [cfgLogHuge] at hn)
    (by intro a ha; simp [cfgLogHuge] at ha)
    (by intro a ha; simp [cfgLogHuge] at ha)
    (by intro a ha; simp [cfgLogHuge] at ha)
    9 rfl (by decide) 0 rfl (by decide)

/-- `validateGlobals` only ever returns ok or an invalid-argument error. -/
theorem validateGlobals_no_internal (cfg : DpdkConfig) (m : String) :
    validateGlobals cfg ≠ .internalError m := by
  unfold validateGlobals
  repeat' split
  all_goals intro h
  all_goals cases h

/-- C10: a config with a non-empty worker list whose parsed core_mask
holds no core other than the main core is always rejected with an
invalid-argument error; when all global-option checks pass the error is
exactly "No worker lcores available (coremask only contains main
lcore)". In particular no such config is ever accepted. -/
theorem validate_rejects_no_worker_lcores (cfg : DpdkConfig)
    (hne : cfg.pmd_threads ≠ [])
    (hmain : ∀ c ∈ ParseCoremask cfg.core_mask, c = DetermineMainLcore cfg.core_mask) :
    (∃ m, Validate cfg = .invalidArgument m) ∧
    (validateGlobals cfg = .ok →
      Validate cfg = .invalidArgument
        "No worker lcores available (coremask only contains main lcore)") := by
  have hfilter : (ParseCoremask cfg.core_mask).filter
      (fun l => l ≠ DetermineMainLcore cfg.core_mask) = [] := by
    rw [List.filter_eq_nil_iff]
    intro a ha
    simp [hmain a ha]
  have hwork : validateWorkers cfg =
      .invalidArgument "No worker lcores available (coremask only contains main lcore)" := by
    unfold validateWorkers
    have h1 : cfg.pmd_threads.isEmpty ≠ true := by
      simpa [List.isEmpty_iff] using hne
    rw [if_neg h1]
    simp only [hfilter]
    rfl
  cases hg : validateGlobals cfg with
  | ok =>
    have hv : Validate cfg =
        .invalidArgument "No worker lcores available (coremask only contains main lcore)" := by
      unfold Validate
      rw [hg, hwork]
    exact ⟨⟨_, hv⟩, fun _ => hv⟩
  | invalidArgument msg =>
    refine ⟨⟨msg, ?_⟩, fun h => nomatch h⟩
    unfold Validate
    rw [hg]
  | internalError msg =>
    exact absurd hg (validateGlobals_no_internal cfg msg)

/-- C10 witness: the rejection at a concrete single-core config. -/
theorem validate_rejects_no_worker_lcores_witness :
    (∃ m, Validate cfgMainOnly = .invalidArgument m) ∧
    Validate cfgMainOnly = .invalidArgument
      "No worker lcores available (coremask only contains main lcore)" := by
  have h := validate_rejects_no_worker_lcores cfgMainOnly (by decide) (by decide)
  exact ⟨h.1, h.2 (by decide)⟩

/-- C2 (failing evaluation): `cfgRoundTripIn` is validator-accepted, yet
decoding its printed JSON form yields `cfgRoundTripOut`, which differs
from the input — the worker's non-empty processor name does not survive
the print-then-decode round trip (the passthrough parameters play no
role here: both configs carry none). -/
theorem roundtrip_drops_processor_name :
    Validate cfgRoundTripIn = .ok ∧
    ParseConfigJson (fun _ => "") (ToJson (fun _ => none) cfgRoundTripIn) =
      .ok cfgRoundTripOut ∧
    cfgRoundTripOut.pmd_threads.map PmdThreadConfig.processor_name = [""] ∧
    cfgRoundTripIn.pmd_threads.map PmdThreadConfig.processor_name = ["custom"] ∧
    cfgRoundTripOut ≠ cfgRoundTripIn := by
  refine ⟨rfl, rfl, rfl, rfl, by decide⟩


/-- A hex digit is not `isspace` whitespace. -/
theorem hex_not_space {c : Char} (h : isHexDigitChar c = true) : isSpaceChar c = false := by
  simp [isHexDigitChar] at h
  simp [isSpaceChar]
  omega

/-- A hex digit is none of the sign and base-prefix characters
`strtoull` treats specially. -/
theorem hex_ne (c : Char) (h : isHexDigitChar c = true) :
    c ≠ '-' ∧ c ≠ '+' ∧ c ≠ 'x' ∧ c ≠ 'X' := by
  refine ⟨fun he => ?_, fun he => ?_, fun he => ?_, fun he => ?_⟩ <;>
    (subst he; exact absurd h (by decide))

/-- `takeWhile` keeps a list all of whose elements satisfy the predicate. -/
theorem takeWhile_all {α} (p : α → Bool) :
    ∀ l : List α, (∀ c ∈ l, p c = true) → l.takeWhile p = l := by
  intro l
  induction l with
  | nil => intro _; rfl
  | cons a as ih =>
    intro h
    simp [List.takeWhile_cons, h a (by simp), ih (fun c hc => h c (by simp [hc]))]

/-- On a string of hex digits whose value fits in 64 bits, `strtoull`
computes exactly the mathematical hex value (the domain on which
`u64::from_str_radix` succeeds). -/
theorem strtoull16_all_hex :
    ∀ l : List Char, (∀ c ∈ l, isHexDigitChar c = true) →
      hexDigitsVal l < 2 ^ 64 → strtoull16 l = hexDigitsVal l := by
  intro l hhex hfit
  cases l with
  | nil => rfl
  | cons c rest =>
    have hc : isHexDigitChar c = true := hhex c (by simp)
    have hne := hex_ne c hc
    have hdrop : (c :: rest).dropWhile isSpaceChar = c :: rest := by
      rw [List.dropWhile_cons, if_neg (by simp [hex_not_space hc])]
    unfold strtoull16
    rw [hdrop]
    simp only [if_neg hne.1, if_neg hne.2.1]
    cases rest with
    | nil =>
      simp [List.takeWhile_cons, hc, Nat.not_le.mpr hfit]
      omega
    | cons c2 rest2 =>
      have hc2 : isHexDigitChar c2 = true := hhex c2 (by simp)
      have hne2 := hex_ne c2 hc2
      have hpre : ¬(c = '0' ∧ (c2 = 'x' ∨ c2 = 'X')) := by
        rintro ⟨-, h2 | h2⟩
        · exact hne2.2.2.1 h2
        · exact hne2.2.2.2 h2
      simp only [if_neg hpre]
      rw [takeWhile_all isHexDigitChar _ hhex]
      simp [Nat.not_le.mpr hfit]
      omega

/-- C6: ParseCoremask returns the empty set for an absent or empty
core_mask; and for a non-empty mask whose prefix-stripped remainder is a
hex-digit string with value below `2^64` (the inputs on which
`u64::from_str_radix` succeeds), it returns exactly the indices in 0..63
of the set bits of that value. -/
theorem parse_coremask_exact :
    (ParseCoremask none = [] ∧ ParseCoremask (some "") = []) ∧
    ∀ s : String, s.data ≠ [] →
      (∀ c ∈ stripHexPrefix s.data, isHexDigitChar c = true) →
      hexDigitsVal (stripHexPrefix s.data) < 2 ^ 64 →
      ParseCoremask (some s) = (List.range 64).filter
        (fun i => (hexDigitsVal (stripHexPrefix s.data)).testBit i) := by
  refine ⟨⟨rfl, rfl⟩, ?_⟩
  intro s hne hhex hfit
  simp only [ParseCoremask]
  rw [if_neg (by simpa using hne)]
  rw [strtoull16_all_hex _ hhex hfit]

/-- C6 witness: the bit set of `"0xff"`, namely cores 0..7. -/
theorem parse_coremask_exact_witness :
    ParseCoremask (some "0xff") = (List.range 64).filter
      (fun i => (hexDigitsVal (stripHexPrefix "0xff".data)).testBit i) ∧
    ParseCoremask (some "0xff") = [0, 1, 2, 3, 4, 5, 6, 7] :=
  ⟨parse_coremask_exact.2 "0xff" (by decide) (by decide) (by decide), by decide⟩

/-- Success of the per-worker lcore loop means every worker lcore is
available, non-main, outside the incoming seen set, and the workers are
pairwise distinct. -/
theorem checkWorkerLcores_ok :
    ∀ (ws : List PmdThreadConfig) (available : List Nat) (main : Nat) (seen : List Nat),
      checkWorkerLcores available main seen ws = .ok →
      (∀ w ∈ ws, w.lcore_id ∈ available ∧ w.lcore_id ≠ main ∧ w.lcore_id ∉ seen) ∧
      ws.Pairwise (fun a b => a.lcore_id ≠ b.lcore_id) := by
  intro ws
  induction ws with
  | nil => intro _ _ _ _; exact ⟨by simp, List.Pairwise.nil⟩
  | cons w rest ih =>
    intro available main seen h
    unfold checkWorkerLcores at h
    by_cases h1 : w.lcore_id = main
    · rw [if_pos h1] at h; exact absurd h (by simp)
    rw [if_neg h1] at h
    by_cases h2 : w.lcore_id ∈ available
    · rw [if_neg (not_not_intro h2)] at h
      by_cases h3 : w.lcore_id ∈ seen
      · rw [if_pos h3] at h; exact absurd h (by simp)
      rw [if_neg h3] at h
      obtain ⟨hall, hpw⟩ := ih available main (w.lcore_id :: seen) h
      refine ⟨?_, ?_⟩
      · intro x hx
        rcases List.mem_cons.mp hx with hx | hx
        · subst hx; exact ⟨h2, h1, h3⟩
        · obtain ⟨ha, hm, hs⟩ := hall x hx
          exact ⟨ha, hm, fun hmem => hs (List.mem_cons_of_mem _ hmem)⟩
      · refine List.Pairwise.cons ?_ hpw
        intro y hy
        obtain ⟨-, -, hs⟩ := hall y hy
        exact fun he => hs (by rw [← he]; exact List.mem_cons_self _ _)
    · rw [if_pos h2] at h; exact absurd h (by simp)

/-- A config Validate accepts has an accepting worker section. -/
theorem validate_ok_workers_aux (cfg : DpdkConfig) (hok : Validate cfg = .ok) :
    validateWorkers cfg = .ok := by
  unfold Validate at hok
  cases hg : validateGlobals cfg <;> rw [hg] at hok
  · cases hv : validateWorkers cfg <;> rw [hv] at hok
    all_goals first | rfl | simp at hok
  all_goals simp at hok

/-- An accepting worker section on a non-empty worker list means the
per-worker lcore loop accepted. -/
theorem validateWorkers_ok_lcores (cfg : DpdkConfig) (hW : validateWorkers cfg = .ok)
    (hne : cfg.pmd_threads ≠ []) :
    checkWorkerLcores (ParseCoremask cfg.core_mask) (DetermineMainLcore cfg.core_mask)
      [] cfg.pmd_threads = .ok := by
  unfold validateWorkers at hW
  rw [if_neg (by simpa [List.isEmpty_iff] using hne)] at hW
  by_cases hf : ((ParseCoremask cfg.core_mask).filter
      (fun l => l ≠ DetermineMainLcore cfg.core_mask)).isEmpty = true
  · rw [if_pos hf] at hW; exact absurd hW (by simp)
  · rw [if_neg hf] at hW
    cases hc : checkWorkerLcores (ParseCoremask cfg.core_mask)
        (DetermineMainLcore cfg.core_mask) [] cfg.pmd_threads <;> rw [hc] at hW
    all_goals first | rfl | simp at hW

/-- C3: for every config Validate accepts whose worker list is
non-empty, each worker's lcore_id is in the set parsed from core_mask,
no worker sits on the main lcore, and the worker lcore_ids are pairwise
distinct. -/
theorem validated_workers_in_coremask (cfg : DpdkConfig)
    (hok : Validate cfg = .ok) (hne : cfg.pmd_threads ≠ []) :
    (∀ w ∈ cfg.pmd_threads,
      w.lcore_id ∈ ParseCoremask cfg.core_mask ∧
      w.lcore_id ≠ DetermineMainLcore cfg.core_mask) ∧
    cfg.pmd_threads.Pairwise (fun a b => a.lcore_id ≠ b.lcore_id) := by
  have hc := validateWorkers_ok_lcores cfg (validate_ok_workers_aux cfg hok) hne
  obtain ⟨hall, hpw⟩ := checkWorkerLcores_ok cfg.pmd_threads _ _ _ hc
  exact ⟨fun w hw => ⟨(hall w hw).1, (hall w hw).2.1⟩, hpw⟩

/-- C3 witness: the accepted S1-style config respects the lcore
invariants. -/
theorem validated_workers_in_coremask_witness :
    (∀ w ∈ cfgRoundTripIn.pmd_threads,
      w.lcore_id ∈ ParseCoremask cfgRoundTripIn.core_mask ∧
      w.lcore_id ≠ DetermineMainLcore cfgRoundTripIn.core_mask) ∧
    cfgRoundTripIn.pmd_threads.Pairwise (fun a b => a.lcore_id ≠ b.lcore_id) :=
  validated_workers_in_coremask cfgRoundTripIn (by decide) (by decide)

/-- The hot loop's event trace: one processor iteration per not-stopped
observation, each followed by a quiescent report exactly when QSBR is
wired, and exit code 0. -/
theorem workerLoop_trace_aux (wired : Bool) :
    ∀ obs : List Bool, workerLoop wired obs =
      ((obs.takeWhile (fun b => !b)).flatMap
        (fun _ => WorkerEvent.procIter ::
          if wired then [WorkerEvent.reportQuiescent] else []),
       0) := by
  intro obs
  induction obs with
  | nil => rfl
  | cons b rest ih =>
    cases b
    · simp [workerLoop, ih]
    · simp [workerLoop]

/-- In the QSBR-wired launch sequence, every launch of a worker is
preceded by that worker's registration. -/
theorem register_before_launch_aux :
    ∀ (workers : List Nat) (mainLcore : Nat) (pre post : List LaunchAction) (w : Nat),
      launchActions true mainLcore workers = pre ++ LaunchAction.launch w :: post →
      LaunchAction.register w ∈ pre := by
  intro workers
  induction workers with
  | nil =>
    intro main pre post w h
    exact absurd h (by simp [launchActions])
  | cons x rest ih =>
    intro main pre post w h
    by_cases hx : x = main
    · simp only [launchActions, if_pos hx, List.nil_append] at h
      exact ih main pre post w h
    · simp only [launchActions, if_neg hx, if_pos rfl, List.cons_append, List.nil_append,
        List.singleton_append] at h
      cases pre with
      | nil => simp at h
      | cons a pre1 =>
        rw [List.cons_append] at h
        injection h with h1 h2
        subst h1
        cases pre1 with
        | nil =>
          injection h2 with h3 h4
          injection h3 with h5
          subst h5
          simp
        | cons b pre2 =>
          rw [List.cons_append] at h2
          injection h2 with h3 h4
          have hm := ih main pre2 post w h4
          exact List.mem_cons_of_mem _ (List.mem_cons_of_mem _ hm)

/-- C1 (spec-modelled): the launched worker loop runs the selected
processor's process-one-iteration body once per iteration while the
stop flag is not observed, reports a quiescent state each iteration
exactly when a QSBR manager is wired, and returns 0 on clean exit; and
in the launch sequence with QSBR wired, every launched worker core is
registered with the manager before its launch. -/
theorem worker_loop_processes_and_reports (wired : Bool) (obs : List Bool)
    (mainLcore : Nat) (workers : List Nat) :
    workerLoop wired obs =
      ((obs.takeWhile (fun b => !b)).flatMap
        (fun _ => WorkerEvent.procIter ::
          if wired then [WorkerEvent.reportQuiescent] else []),
       0) ∧
    (∀ (pre post : List LaunchAction) (w : Nat),
      launchActions true mainLcore workers = pre ++ LaunchAction.launch w :: post →
      LaunchAction.register w ∈ pre) :=
  ⟨workerLoop_trace_aux wired obs,
   fun pre post w h => register_before_launch_aux workers mainLcore pre post w h⟩

/-- C1 witness: one not-stopped observation then stop, QSBR wired, one
worker on core 1 with main core 0. -/
theorem worker_loop_processes_and_reports_witness :
    workerLoop true [false, true] =
      ([WorkerEvent.procIter, WorkerEvent.reportQuiescent], 0) ∧
    LaunchAction.register 1 ∈ [LaunchAction.register 1] := by
  have h := worker_loop_processes_and_reports true [false, true] 0 [1]
  refine ⟨?_, h.2 [LaunchAction.register 1] [] 1 (by decide)⟩
  rw [h.1]
  decide

end Fwd
